import Mathlib

/-!
Verification of `rave-latent-to-ds.py`: a shallow embedding of its pipeline
(`process_audio_files`), its OSC request handlers (`handle_process_request`)
and its model introspection path (`get_model_dimensions`), with theorems
settling the specification claims.

Numeric values (numpy float arrays, latent vectors, reduced coordinates) are
embedded as rationals `ℚ`, so arithmetic identities are exact.  The external
collaborators (the RAVE encoder, librosa decoding, and the sklearn/umap
`fit_transform` implementations) are inputs of the embedded functions: the
encoder's post-`squeeze` output per file and the three fitted reducers are
parameters, constrained in theorems only by their documented contracts.
-/

set_option autoImplicit false

namespace RaveLatent

/-- Result of `rave.encode(x).cpu().numpy().squeeze()` for one audio file:
either a rank-1 vector (`z.ndim == 1`) or a rank-2 matrix
(dimensions × timesteps, row `d` holding the timestep series of latent
dimension `d`). -/
inductive EncOut where
  | rank1 (v : List ℚ)
  | rank2 (m : List (List ℚ))
deriving DecidableEq

/-- Lines 75-87: rank-1 output is kept as-is (`z_mean = z`); rank-2 output is
averaged across time (`np.mean(z, axis=1)`), i.e. each dimension row becomes
its arithmetic mean. -/
def zMean : EncOut → List ℚ
  | .rank1 v => v
  | .rank2 m => m.map (fun row => row.sum / (row.length : ℚ))

/-- Lines 78-84: the value stored in `num_dimensions` by the first processed
file.  For rank-1 output the code literally assigns `num_dimensions = 1`;
for rank-2 output it assigns `z.shape[0]`, the number of rows. -/
def numDims : EncOut → Nat
  | .rank1 _ => 1
  | .rank2 m => m.length

/-- Line 48: `f.lower().endswith('.wav')`.  Lowering is per-character
(`Char.toLower`), which agrees with `str.lower` on the ASCII range relevant
to matching the ASCII suffix `.wav`. -/
def isWavFile (f : String) : Bool :=
  (".wav".data).isSuffixOf (f.data.map Char.toLower)

/-- Lines 45-49: files of the directory listing whose name, lowercased,
ends with the `.wav` suffix. -/
def eligibleFiles (fileNames : List String) : List String :=
  fileNames.filter isWavFile

/-- Index of the last occurrence of a dot in a character list, if any. -/
def lastDotIdx : List Char → Option Nat
  | [] => none
  | c :: rest =>
      match lastDotIdx rest with
      | some i => some (i + 1)
      | none => if c = '.' then some 0 else none

/-- `os.path.splitext(basename)[0]` on a bare file name (no separator):
the part before the last dot, except that a name whose characters before
that dot are all dots (e.g. `.wav`) is kept whole. -/
def splitextStem (s : String) : String :=
  match lastDotIdx s.data with
  | none => s
  | some i =>
      if (s.data.take i).any (fun c => c ≠ '.') then ⟨s.data.take i⟩ else s

/-- Lines 178-181 and 207-209: strip a literal leading `Macintosh HD:`
volume prefix (`replace("Macintosh HD:", "", 1)` guarded by `startswith`). -/
def stripMacVolume (s : String) : String :=
  if ("Macintosh HD:".data).isPrefixOf s.data then
    ⟨s.data.drop ("Macintosh HD:".data.length)⟩
  else s

/-- The row-wise maximum of absolute values, `np.abs(row).max()` seeded
at `0` (all entries have nonnegative absolute value, so for a non-empty
row the seed is never the strict maximum). -/
def rowAbsMax (row : List ℚ) : ℚ :=
  (row.map abs).foldl max 0

/-- `np.abs(matrix).max()` over a rank-2 array, seeded at `0`. -/
def maxAbs (m : List (List ℚ)) : ℚ :=
  (m.map rowAbsMax).foldl max 0

/-- Lines 110-113 / 122-125: post-fit scaling of t-SNE / UMAP coordinates:
`max_val = np.abs(latent_reduced).max(); if max_val != 0:
latent_reduced = latent_reduced * (5.0 / max_val)` — a single scalar
multiplies every entry of the matrix. -/
def scaleCoords (m : List (List ℚ)) : List (List ℚ) :=
  if maxAbs m ≠ 0 then m.map (fun row => row.map (fun x => x * (5 / maxAbs m))) else m

/-- An external `fit_transform` implementation: component count and the
stacked latent matrix in, reduced matrix out. -/
abbrev Fit := Nat → List (List ℚ) → List (List ℚ)

/-- Lines 106-136: method dispatch of the reduction stage.  `tsne` and `umap`
are scaled after fitting; every other selector, `pca` included, falls into
the `else:  # pca` branch, unscaled. -/
def reducedMatrix (method : String) (tf uf pf : Fit) (n : Nat)
    (m : List (List ℚ)) : List (List ℚ) :=
  if method = "tsne" then scaleCoords (tf n m)
  else if method = "umap" then scaleCoords (uf n m)
  else pf n m

/-- The JSON document written at lines 94-136: `cols`, `data`, and the
optional `reduced_data` mapping (association lists stand for the JSON
objects; insertion order follows the iteration order of the source dicts). -/
structure Artifact where
  cols : Nat
  data : List (String × List ℚ)
  reduced_data : Option (List (String × List ℚ))
deriving DecidableEq

/-- Lines 54-136 applied to a non-empty eligible listing `audioFiles` whose
head is `f0`: build `latent_data` keyed by stem, take `cols` from the first
file, and unless skipping, reduce the stacked matrix with `n_components`
forced to 2 (line 104) and key the rows by `latent_data.keys()` order
(lines 115-116, 127-128, 135-136). -/
def buildArtifact (audioFiles : List String) (f0 : String)
    (encode : String → EncOut) (method : String) (skip : Bool)
    (tf uf pf : Fit) : Artifact :=
  let latentData := audioFiles.map (fun f => (splitextStem f, zMean (encode f)))
  let cols := numDims (encode f0)
  if skip then { cols := cols, data := latentData, reduced_data := none }
  else
    let latentMatrix := latentData.map Prod.snd
    let reduced := reducedMatrix method tf uf pf 2 latentMatrix
    { cols := cols, data := latentData,
      reduced_data := some ((latentData.map Prod.fst).zip reduced) }

/-- `process_audio_files` (lines 34-165) as a function of the directory
listing, the encoder, the caller's `n_components` (ignored by line 104),
the method, the skip flag and the three external reducers.  `none` models
the early `return None` of lines 50-52: no artifact written, nothing sent. -/
def processAudioFiles (fileNames : List String) (encode : String → EncOut)
    (nComponents : Nat) (method : String) (skip : Bool)
    (tf uf pf : Fit) : Option Artifact :=
  match eligibleFiles fileNames with
  | [] => none
  | f0 :: rest => some (buildArtifact (f0 :: rest) f0 encode method skip tf uf pf)

/-- Lines 161-163: the completion message on `/rave/processing/done` is sent
exactly when the pipeline ran to the end (returned an artifact) and an OSC
client was provided. -/
def completionSent (fileNames : List String) (encode : String → EncOut)
    (nComponents : Nat) (method : String) (skip : Bool)
    (tf uf pf : Fit) (hasClient : Bool) : Bool :=
  hasClient && (processAudioFiles fileNames encode nComponents method skip tf uf pf).isSome

/-- One positional OSC argument, as python-osc delivers it: string, integer,
float (embedded as `ℚ`) or boolean. -/
inductive OscArg where
  | S (s : String)
  | I (n : Int)
  | F (q : ℚ)
  | B (b : Bool)
deriving DecidableEq

/-- Python `bool(x)` truthiness on an OSC argument (line 186): non-empty
strings and nonzero numbers are truthy. -/
def truthy : OscArg → Bool
  | .S s => if s = "" then false else true
  | .I n => if n = 0 then false else true
  | .F q => if q = 0 then false else true
  | .B b => b

/-- The string payload of a path argument.  The handler calls `.startswith`
on `args[0]` and `args[1]`, so in the source these are strings; the claims
settled here do not depend on the non-string case. -/
def argString : OscArg → String
  | .S s => s
  | _ => ""

/-- The job a dispatched worker receives (lines 191-200). -/
structure JobRequest where
  audioDir : String
  modelPath : String
  outputJson : Option OscArg
  method : String
  skipDimReduction : Bool
deriving DecidableEq

/-- `handle_process_request` (lines 167-202) as the dispatch decision per
inbound message: messages with fewer than 2 positional arguments are logged
and dropped (`none`), otherwise a worker is spawned on the normalized job
(`some`).  Optional arguments: `args[2]` raw, `args[3]` defaulting to
`"pca"`, and `bool(args[4])` defaulting to `False`. -/
def handleProcessRequest (args : List OscArg) : Option JobRequest :=
  match args with
  | a0 :: a1 :: rest =>
      some { audioDir := stripMacVolume (argString a0)
             modelPath := stripMacVolume (argString a1)
             outputJson := rest.get? 0
             method :=
               match rest.get? 1 with
               | some a => argString a
               | none => "pca"
             skipDimReduction :=
               match rest.get? 2 with
               | some a => truthy a
               | none => false }
  | _ => none

/-- `get_model_dimensions` (lines 204-241): the whole `try` body — path
normalization, `torch.jit.load`, probe encode, `z.shape[1]` — is modelled by
`probe`, which either yields the latent width or raises.  The result pairs
the returned value (`None` on failure) with the list of OSC messages sent on
the reply topic: the width on success, the sentinel `-1` on any failure. -/
def getModelDimensions (probe : String → Except String Nat)
    (modelPath : String) (hasClient : Bool) : Option Nat × List Int :=
  match probe (stripMacVolume modelPath) with
  | .ok latentDim => (some latentDim, if hasClient then [(latentDim : Int)] else [])
  | .error _ => (none, if hasClient then [(-1 : Int)] else [])

/-! ### Helper lemmas about the scaling step -/

lemma foldl_max_init_le (l : List ℚ) : ∀ a : ℚ, a ≤ l.foldl max a := by
  induction l with
  | nil => intro a; exact le_refl a
  | cons x xs ih => intro a; exact le_trans (le_max_left a x) (ih (max a x))

lemma foldl_max_mul (c : ℚ) (hc : 0 ≤ c) (l : List ℚ) :
    ∀ a : ℚ, (l.map (fun x => x * c)).foldl max (a * c) = l.foldl max a * c := by
  induction l with
  | nil => intro a; rfl
  | cons x xs ih =>
      intro a
      simp only [List.map_cons, List.foldl_cons]
      rw [← max_mul_of_nonneg a x hc]
      exact ih (max a x)

lemma rowAbsMax_mul (row : List ℚ) (c : ℚ) (hc : 0 ≤ c) :
    rowAbsMax (row.map (fun x => x * c)) = rowAbsMax row * c := by
  unfold rowAbsMax
  rw [List.map_map]
  have h1 : (abs ∘ fun x : ℚ => x * c) = (fun y : ℚ => y * c) ∘ abs := by
    funext x
    simp [Function.comp, abs_mul, abs_of_nonneg hc]
  rw [h1, ← List.map_map]
  have h2 := foldl_max_mul c hc (row.map abs) 0
  rw [zero_mul] at h2
  exact h2

lemma maxAbs_nonneg (m : List (List ℚ)) : 0 ≤ maxAbs m :=
  foldl_max_init_le (m.map rowAbsMax) 0

lemma maxAbs_mul (m : List (List ℚ)) (c : ℚ) (hc : 0 ≤ c) :
    maxAbs (m.map (fun row => row.map (fun x => x * c))) = maxAbs m * c := by
  unfold maxAbs
  rw [List.map_map]
  have h1 : (rowAbsMax ∘ fun row : List ℚ => row.map (fun x => x * c)) =
      (fun y : ℚ => y * c) ∘ rowAbsMax := by
    funext row
    simp [Function.comp, rowAbsMax_mul row c hc]
  rw [h1, ← List.map_map]
  have h2 := foldl_max_mul c hc (m.map rowAbsMax) 0
  rw [zero_mul] at h2
  exact h2

lemma scaleCoords_of_ne (r : List (List ℚ)) (h : maxAbs r ≠ 0) :
    scaleCoords r = r.map (fun row => row.map (fun x => x * (5 / maxAbs r))) := by
  unfold scaleCoords
  rw [if_pos h]

lemma scaleCoords_of_eq (r : List (List ℚ)) (h : maxAbs r = 0) :
    scaleCoords r = r := by
  unfold scaleCoords
  rw [if_neg (fun hn => hn h)]

lemma scaleCoords_max_five (r : List (List ℚ)) (h : maxAbs r ≠ 0) :
    maxAbs (scaleCoords r) = 5 := by
  have hpos : 0 < maxAbs r := lt_of_le_of_ne (maxAbs_nonneg r) (Ne.symm h)
  have hc : (0 : ℚ) ≤ 5 / maxAbs r := le_of_lt (div_pos (by norm_num) hpos)
  rw [scaleCoords_of_ne r h, maxAbs_mul r _ hc, mul_comm]
  exact div_mul_cancel₀ 5 h

lemma scaleCoords_length (m : List (List ℚ)) :
    (scaleCoords m).length = m.length := by
  unfold scaleCoords
  split
  · simp
  · rfl

lemma scaleCoords_mem_length (m : List (List ℚ)) (row : List ℚ)
    (h : row ∈ scaleCoords m) : ∃ r0 ∈ m, row.length = r0.length := by
  unfold scaleCoords at h
  split at h
  · obtain ⟨r0, hr0, rfl⟩ := List.mem_map.mp h
    exact ⟨r0, hr0, by simp⟩
  · exact ⟨row, h, rfl⟩

lemma reducedMatrix_length (method : String) (tf uf pf : Fit) (n : Nat)
    (m : List (List ℚ))
    (htf : (tf n m).length = m.length) (huf : (uf n m).length = m.length)
    (hpf : (pf n m).length = m.length) :
    (reducedMatrix method tf uf pf n m).length = m.length := by
  unfold reducedMatrix
  split
  · rw [scaleCoords_length]; exact htf
  · split
    · rw [scaleCoords_length]; exact huf
    · exact hpf

lemma reducedMatrix_mem_length (method : String) (tf uf pf : Fit) (n : Nat)
    (m : List (List ℚ)) (row : List ℚ)
    (htf : ∀ r ∈ tf n m, r.length = n) (huf : ∀ r ∈ uf n m, r.length = n)
    (hpf : ∀ r ∈ pf n m, r.length = n)
    (h : row ∈ reducedMatrix method tf uf pf n m) : row.length = n := by
  unfold reducedMatrix at h
  split at h
  · obtain ⟨r0, hr0, hlen⟩ := scaleCoords_mem_length _ _ h
    rw [hlen]; exact htf r0 hr0
  · split at h
    · obtain ⟨r0, hr0, hlen⟩ := scaleCoords_mem_length _ _ h
      rw [hlen]; exact huf r0 hr0
    · exact hpf row h

/-! ### Helper lemmas about the pipeline body -/

lemma buildArtifact_skip (audioFiles : List String) (f0 : String)
    (encode : String → EncOut) (method : String) (tf uf pf : Fit) :
    buildArtifact audioFiles f0 encode method true tf uf pf =
      { cols := numDims (encode f0),
        data := audioFiles.map (fun f => (splitextStem f, zMean (encode f))),
        reduced_data := none } := rfl

lemma buildArtifact_noskip (audioFiles : List String) (f0 : String)
    (encode : String → EncOut) (method : String) (tf uf pf : Fit) :
    buildArtifact audioFiles f0 encode method false tf uf pf =
      { cols := numDims (encode f0),
        data := audioFiles.map (fun f => (splitextStem f, zMean (encode f))),
        reduced_data := some
          (((audioFiles.map (fun f => (splitextStem f, zMean (encode f)))).map Prod.fst).zip
            (reducedMatrix method tf uf pf 2
              ((audioFiles.map (fun f => (splitextStem f, zMean (encode f)))).map Prod.snd))) } :=
  rfl

lemma processAudioFiles_eq_some (fileNames : List String) (encode : String → EncOut)
    (nComponents : Nat) (method : String) (skip : Bool) (tf uf pf : Fit)
    (art : Artifact)
    (h : processAudioFiles fileNames encode nComponents method skip tf uf pf = some art) :
    ∃ f0 rest, eligibleFiles fileNames = f0 :: rest ∧
      art = buildArtifact (f0 :: rest) f0 encode method skip tf uf pf := by
  unfold processAudioFiles at h
  cases hE : eligibleFiles fileNames with
  | nil => rw [hE] at h; exact absurd h (by simp)
  | cons f0 rest =>
      rw [hE] at h
      simp only [Option.some.injEq] at h
      exact ⟨f0, rest, rfl, h.symm⟩

/-! ### Claim C1 -/

/-- C1, as stated, is false: a job whose method selector is the unrecognized
string `"foo"` does not fail fast; the pipeline runs to completion and its
`reduced_data` is exactly the PCA reducer's output (here the constant
reducer returning `[[0, 0]]` per row), because line 130's `else:  # pca`
branch catches every selector other than `"tsne"` / `"umap"`. -/
theorem c1_unknown_method_no_failure :
    processAudioFiles ["a.wav"] (fun _ => EncOut.rank1 [1, 2]) 2 "foo" false
      (fun _ _ => [[9, 9]]) (fun _ _ => [[8, 8]])
      (fun n m => m.map (fun _ => List.replicate n 0))
      = some { cols := 1, data := [("a", [1, 2])],
               reduced_data := some [("a", [0, 0])] } := by
  decide

/-- C1 (amended): an unrecognized reduction method selector is not rejected
and no error is raised: every selector other than `"tsne"` and `"umap"`
silently falls into the PCA branch of the dimensionality reduction stage. -/
theorem c1_unknown_method_defaults_to_pca (method : String) (tf uf pf : Fit)
    (n : Nat) (m : List (List ℚ))
    (hts : method ≠ "tsne") (hum : method ≠ "umap") :
    reducedMatrix method tf uf pf n m = pf n m := by
  unfold reducedMatrix
  rw [if_neg hts, if_neg hum]

/-- Witness for the amended C1 at the concrete selector `"foo"`. -/
theorem c1_unknown_method_defaults_to_pca_witness :
    reducedMatrix "foo" (fun _ _ => [[9]]) (fun _ _ => [[8]])
      (fun _ _ => [[0, 0]]) 2 [[1]] = [[0, 0]] :=
  c1_unknown_method_defaults_to_pca "foo" (fun _ _ => [[9]]) (fun _ _ => [[8]])
    (fun _ _ => [[0, 0]]) 2 [[1]] (by decide) (by decide)

/-! ### Claim C2 -/

/-- C2: evaluation exhibiting the code bug.  For a directory with the single
file `a.wav` whose squeezed encoding is the rank-1 vector `[1, 2]` (latent
width 2, one encoded timestep), the artifact declares `cols = 1` (line 80
assigns the constant `1`, although the comment above it says to use `z`'s
length) while the stored vector has length 2 — so not every vector in `data`
has length equal to `cols`. -/
theorem c2_rank1_cols_mismatch :
    processAudioFiles ["a.wav"] (fun _ => EncOut.rank1 [1, 2]) 2 "pca" true
      (fun _ _ => []) (fun _ _ => []) (fun _ _ => [])
      = some { cols := 1, data := [("a", [1, 2])], reduced_data := none } ∧
    ¬ ∀ p ∈ [(("a" : String), [(1 : ℚ), 2])], p.2.length = 1 := by
  exact ⟨by decide, by decide⟩

/-! ### Claim C3 -/

/-- C3: for methods `tsne` and `umap` the fitted matrix is post-scaled by
`scaleCoords`, for `pca` it is stored unscaled; and `scaleCoords` multiplies
every coordinate by the one scalar `5 / maxAbs r` so the maximum absolute
value over the whole matrix becomes exactly `5`, unless the pre-scale
maximum is exactly `0`, in which case the matrix is unchanged. -/
theorem c3_postscaling (tf uf pf : Fit) (n : Nat) (m r : List (List ℚ)) :
    reducedMatrix "tsne" tf uf pf n m = scaleCoords (tf n m) ∧
    reducedMatrix "umap" tf uf pf n m = scaleCoords (uf n m) ∧
    reducedMatrix "pca" tf uf pf n m = pf n m ∧
    (maxAbs r ≠ 0 →
      scaleCoords r = r.map (fun row => row.map (fun x => x * (5 / maxAbs r))) ∧
      maxAbs (scaleCoords r) = 5) ∧
    (maxAbs r = 0 → scaleCoords r = r) := by
  refine ⟨rfl, ?_, ?_, fun h => ⟨scaleCoords_of_ne r h, scaleCoords_max_five r h⟩,
    scaleCoords_of_eq r⟩
  · unfold reducedMatrix
    rw [if_neg (by decide), if_pos rfl]
  · unfold reducedMatrix
    rw [if_neg (by decide), if_neg (by decide)]

/-- Witness for C3 at the concrete fitted matrix `[[3, -10], [2, 0]]`,
whose pre-scale maximum absolute value is `10 ≠ 0`. -/
theorem c3_postscaling_witness :
    maxAbs [[3, -10], [2, 0]] ≠ 0 ∧ maxAbs (scaleCoords [[3, -10], [2, 0]]) = 5 :=
  ⟨by decide,
   ((c3_postscaling (fun _ _ => []) (fun _ _ => []) (fun _ _ => []) 2 []
      [[3, -10], [2, 0]]).2.2.2.1 (by decide)).2⟩

/-! ### Claim C4 -/

/-- C4: a job whose directory listing contains no file with the `.wav`
extension (matched case-insensitively) aborts: `process_audio_files`
returns `None` before building anything, no artifact is produced, and no
completion notification is sent on the reply topic. -/
theorem c4_empty_input_aborts (fileNames : List String) (encode : String → EncOut)
    (nComponents : Nat) (method : String) (skip : Bool) (tf uf pf : Fit)
    (hasClient : Bool) (h : eligibleFiles fileNames = []) :
    processAudioFiles fileNames encode nComponents method skip tf uf pf = none ∧
    completionSent fileNames encode nComponents method skip tf uf pf hasClient = false := by
  have hp : processAudioFiles fileNames encode nComponents method skip tf uf pf = none := by
    unfold processAudioFiles
    rw [h]
  refine ⟨hp, ?_⟩
  unfold completionSent
  rw [hp]
  simp

/-- Witness for C4: a directory whose only entry is `a.mp3` yields no
artifact and no completion message, even with a client attached. -/
theorem c4_empty_input_aborts_witness :
    processAudioFiles ["a.mp3"] (fun _ => EncOut.rank1 []) 2 "pca" false
      (fun _ _ => []) (fun _ _ => []) (fun _ _ => []) = none ∧
    completionSent ["a.mp3"] (fun _ => EncOut.rank1 []) 2 "pca" false
      (fun _ _ => []) (fun _ _ => []) (fun _ _ => []) true = false :=
  c4_empty_input_aborts ["a.mp3"] (fun _ => EncOut.rank1 []) 2 "pca" false
    (fun _ _ => []) (fun _ _ => []) (fun _ _ => []) true (by decide)

/-! ### Claim C5 -/

/-- C5: for every completed job (under the sklearn/umap contract that
`fit_transform` returns one row per input row), the artifact contains
`reduced_data` iff the skip-reduction flag was not set, and when present its
key sequence is identical to that of `data`. -/
theorem c5_reduced_data_presence (fileNames : List String) (encode : String → EncOut)
    (nComponents : Nat) (method : String) (skip : Bool) (tf uf pf : Fit)
    (htf : ∀ n m, (tf n m).length = m.length)
    (huf : ∀ n m, (uf n m).length = m.length)
    (hpf : ∀ n m, (pf n m).length = m.length)
    (art : Artifact)
    (hart : processAudioFiles fileNames encode nComponents method skip tf uf pf = some art) :
    (art.reduced_data.isSome = !skip) ∧
    (∀ rd, art.reduced_data = some rd → rd.map Prod.fst = art.data.map Prod.fst) := by
  obtain ⟨f0, rest, hE, hart2⟩ := processAudioFiles_eq_some _ _ _ _ _ _ _ _ _ hart
  subst hart2
  cases skip with
  | true =>
      rw [buildArtifact_skip]
      exact ⟨rfl, fun rd hrd => absurd hrd (by simp)⟩
  | false =>
      rw [buildArtifact_noskip]
      refine ⟨rfl, fun rd hrd => ?_⟩
      simp only [Option.some.injEq] at hrd
      subst hrd
      have hred : (reducedMatrix method tf uf pf 2
          (((f0 :: rest).map (fun f => (splitextStem f, zMean (encode f)))).map Prod.snd)).length
          = (((f0 :: rest).map (fun f => (splitextStem f, zMean (encode f)))).map Prod.snd).length :=
        reducedMatrix_length method tf uf pf 2 _ (htf _ _) (huf _ _) (hpf _ _)
      have hle : (((f0 :: rest).map (fun f => (splitextStem f, zMean (encode f)))).map
          Prod.fst).length ≤ (reducedMatrix method tf uf pf 2
          (((f0 :: rest).map (fun f => (splitextStem f, zMean (encode f)))).map Prod.snd)).length := by
        rw [hred]
        simp
      rw [List.map_fst_zip _ _ hle]

/-- Witness for C5: a one-file `pca` job with reduction enabled has
`reduced_data` present. -/
theorem c5_reduced_data_presence_witness :
    (({ cols := 1, data := [("a", [(1 : ℚ), 2])],
        reduced_data := some [("a", [(0 : ℚ), 0])] } : Artifact)).reduced_data.isSome
      = !false :=
  (c5_reduced_data_presence ["a.wav"] (fun _ => EncOut.rank1 [1, 2]) 2 "pca" false
    (fun n m => m.map (fun _ => List.replicate n 0))
    (fun n m => m.map (fun _ => List.replicate n 0))
    (fun n m => m.map (fun _ => List.replicate n 0))
    (by intro n m; simp) (by intro n m; simp) (by intro n m; simp)
    { cols := 1, data := [("a", [1, 2])], reduced_data := some [("a", [0, 0])] }
    (by decide)).1

/-! ### Claim C6 -/

/-- C6: for every job that performs dimensionality reduction (under the
sklearn/umap contract that every `fit_transform` output row has the
requested component count), each stored reduced coordinate has length
exactly 2, whatever `n_components` the caller passed to the pipeline —
line 104 overrides it with the constant 2. -/
theorem c6_reduced_width_two (fileNames : List String) (encode : String → EncOut)
    (nComponents : Nat) (method : String) (skip : Bool) (tf uf pf : Fit)
    (htf : ∀ n m r, r ∈ tf n m → r.length = n)
    (huf : ∀ n m r, r ∈ uf n m → r.length = n)
    (hpf : ∀ n m r, r ∈ pf n m → r.length = n)
    (art : Artifact) (rd : List (String × List ℚ))
    (hart : processAudioFiles fileNames encode nComponents method skip tf uf pf = some art)
    (hrd : art.reduced_data = some rd) :
    ∀ p ∈ rd, p.2.length = 2 := by
  obtain ⟨f0, rest, hE, hart2⟩ := processAudioFiles_eq_some _ _ _ _ _ _ _ _ _ hart
  subst hart2
  cases skip with
  | true =>
      rw [buildArtifact_skip] at hrd
      exact absurd hrd (by simp)
  | false =>
      rw [buildArtifact_noskip] at hrd
      simp only [Option.some.injEq] at hrd
      subst hrd
      intro p hp
      exact reducedMatrix_mem_length method tf uf pf 2 _ _
        (htf _ _) (huf _ _) (hpf _ _) (List.of_mem_zip hp).2

/-- Witness for C6: a `tsne` job dispatched with a caller-requested
component count of 7 still stores a length-2 coordinate. -/
theorem c6_reduced_width_two_witness :
    (("a", [(0 : ℚ), 0]) : String × List ℚ).2.length = 2 :=
  c6_reduced_width_two ["a.wav"] (fun _ => EncOut.rank1 [1, 2]) 7 "tsne" false
    (fun n m => m.map (fun _ => List.replicate n 0))
    (fun n m => m.map (fun _ => List.replicate n 0))
    (fun n m => m.map (fun _ => List.replicate n 0))
    (by intro n m r hr; obtain ⟨x, hx, rfl⟩ := List.mem_map.mp hr; simp)
    (by intro n m r hr; obtain ⟨x, hx, rfl⟩ := List.mem_map.mp hr; simp)
    (by intro n m r hr; obtain ⟨x, hx, rfl⟩ := List.mem_map.mp hr; simp)
    { cols := 1, data := [("a", [1, 2])], reduced_data := some [("a", [0, 0])] }
    [("a", [0, 0])] (by decide) rfl ("a", [0, 0]) (by decide)

/-! ### Claim C7 -/

/-- C7: a rank-1 encoder output is stored as-is; a rank-2 output
(dimensions × timesteps, all rows of length `T > 0`) is averaged across the
timestep axis, so element `d` of the stored vector is the mean over all
timesteps of dimension `d`. -/
theorem c7_temporal_mean (v : List ℚ) (m : List (List ℚ)) (T : Nat)
    (_hT : 0 < T) (hrows : ∀ row ∈ m, row.length = T) :
    zMean (EncOut.rank1 v) = v ∧
    ∀ d : Nat, (zMean (EncOut.rank2 m)).get? d
      = (m.get? d).map (fun row => row.sum / (T : ℚ)) := by
  refine ⟨rfl, fun d => ?_⟩
  show (m.map (fun row => row.sum / (row.length : ℚ))).get? d = _
  rw [List.get?_map]
  cases hm : m.get? d with
  | none => rfl
  | some row =>
      have hmem : row ∈ m := List.get?_mem hm
      simp [hrows row hmem]

/-- Witness for C7 at the two-dimension, two-timestep matrix
`[[1, 3], [2, 2]]`. -/
theorem c7_temporal_mean_witness :
    (zMean (EncOut.rank2 [[1, 3], [2, 2]])).get? 0
      = (([[1, 3], [2, 2]] : List (List ℚ)).get? 0).map
          (fun row => row.sum / ((2 : Nat) : ℚ)) :=
  (c7_temporal_mean [] [[1, 3], [2, 2]] 2 (by decide) (by decide)).2 0

/-! ### Claim C8 -/

/-- C8: the introspection stage answers every request: any failure of the
load/probe body is caught and reported as the sentinel `-1` on the reply
topic (the function still returns, with value `None`), while success sends
the model's latent width. -/
theorem c8_introspection_reply (probe : String → Except String Nat) (path : String) :
    (∀ e, probe (stripMacVolume path) = Except.error e →
      getModelDimensions probe path true = (none, [-1])) ∧
    (∀ d, probe (stripMacVolume path) = Except.ok d →
      getModelDimensions probe path true = (some d, [(d : Int)])) := by
  constructor
  · intro e he
    unfold getModelDimensions
    rw [he]
    rfl
  · intro d hd
    unfold getModelDimensions
    rw [hd]
    rfl

/-- Witness for C8: a probe that always fails (bad model path) makes the
reply topic receive `-1`. -/
theorem c8_introspection_reply_witness :
    getModelDimensions (fun _ => Except.error "bad path") "model.ts" true
      = (none, [-1]) :=
  (c8_introspection_reply (fun _ => Except.error "bad path") "model.ts").1 "bad path" rfl

/-! ### Claim C9 -/

/-- C9: an inbound process message with fewer than 2 positional arguments is
dropped — no job is produced — while any subsequent well-formed request
(two string paths and anything after) still yields a dispatched job. -/
theorem c9_malformed_dropped (args : List OscArg) (h : args.length < 2) :
    handleProcessRequest args = none ∧
    ∀ (a b : String) (rest : List OscArg),
      (handleProcessRequest (OscArg.S a :: OscArg.S b :: rest)).isSome = true := by
  refine ⟨?_, fun a b rest => rfl⟩
  cases args with
  | nil => rfl
  | cons a t =>
      cases t with
      | nil => rfl
      | cons b t2 =>
          exfalso
          simp only [List.length_cons] at h
          omega

/-- Witness for C9: a one-argument message is dropped. -/
theorem c9_malformed_dropped_witness :
    handleProcessRequest [OscArg.S "/tmp/audio"] = none :=
  (c9_malformed_dropped [OscArg.S "/tmp/audio"] (by decide)).1

/-! ### Claim C10 -/

/-- C10: the skip-reduction flag of a five-argument process message is the
Python truthiness coercion of the fifth argument, not a boolean-literal
parse: every non-empty string (the string `"false"` included) and every
nonzero number is truthy, while `0`, the empty string and `False` are
falsy. -/
theorem c10_truthiness_skip_flag (a0 a1 a2 a3 a4 : OscArg) (rest : List OscArg) :
    ((handleProcessRequest (a0 :: a1 :: a2 :: a3 :: a4 :: rest)).map
        JobRequest.skipDimReduction = some (truthy a4)) ∧
    (∀ s : String, s ≠ "" → truthy (OscArg.S s) = true) ∧
    truthy (OscArg.S "") = false ∧
    truthy (OscArg.S "false") = true ∧
    (∀ n : Int, n ≠ 0 → truthy (OscArg.I n) = true) ∧
    truthy (OscArg.I 0) = false ∧
    (∀ q : ℚ, q ≠ 0 → truthy (OscArg.F q) = true) ∧
    truthy (OscArg.F 0) = false ∧
    (∀ b : Bool, truthy (OscArg.B b) = b) := by
  refine ⟨rfl, ?_, rfl, rfl, ?_, rfl, ?_, rfl, fun b => rfl⟩
  · intro s hs
    show (if s = "" then false else true) = true
    rw [if_neg hs]
  · intro n hn
    show (if n = 0 then false else true) = true
    rw [if_neg hn]
  · intro q hq
    show (if q = 0 then false else true) = true
    rw [if_neg hq]

/-- Witness for C10: the literal string `"false"` as fifth argument turns
skipping on, as does a nonzero integer. -/
theorem c10_truthiness_skip_flag_witness :
    truthy (OscArg.S "false") = true ∧ truthy (OscArg.I 3) = true :=
  ⟨(c10_truthiness_skip_flag (OscArg.S "d") (OscArg.S "m") (OscArg.S "o")
      (OscArg.S "pca") (OscArg.S "false") []).2.2.2.1,
   (c10_truthiness_skip_flag (OscArg.S "d") (OscArg.S "m") (OscArg.S "o")
      (OscArg.S "pca") (OscArg.S "false") []).2.2.2.2.1 3 (by decide)⟩

end RaveLatent
